import Mathlib

/-!
Shallow embedding of `xrml/xassets/assets/src/types.rs` (ChainX asset types):
field validation, the `Asset` descriptor, the `AssetType` accounting buckets,
the `AssetErr` taxonomy, and the `PositiveImbalance` / `NegativeImbalance`
move-only tokens with their finalize-on-drop handlers.

Modelling conventions:
* `T::Balance` (a generic unsigned machine integer) is modelled as `Nat`
  together with an explicit saturation cap `M` (the maximum value of the
  balance type); `saturating_add` is `min (a + b) M` and `saturating_sub`
  is truncated `Nat` subtraction, exactly as for an unsigned integer type.
* `Token` / `Desc` byte strings (`Vec<u8>`) are `List Nat` of byte values.
* The `TotalAssetBalance` storage map (asset symbol to bucket to balance,
  entries defaulting to zero via `entry(..).or_default()`) is a total
  function `Store := Token → AssetType → Nat`.
* Rust `Result<A, E>` is `Except E A`; `&'static str` errors are `String`.
* Rust `Drop` handlers become explicit store-transformer functions; the
  structural operations (`split`, `merge`, `subsume`, `offset`) that call
  `mem::forget` are pure functions that do not touch the store.
-/

namespace BEVM

/-- `MAX_TOKEN_LEN` from the source. -/
def MAX_TOKEN_LEN : Nat := 32

/-- `MAX_DESC_LEN` from the source. -/
def MAX_DESC_LEN : Nat := 128

/-- `Token` byte string (`Vec<u8>`), bytes as `Nat`. -/
abbrev Token := List Nat

/-- `Desc` byte string (`Vec<u8>`), bytes as `Nat`. -/
abbrev Desc := List Nat

/-- `Precision` (`u16`); no arithmetic is performed on it in this module. -/
abbrev Precision := Nat

/-- `Chain` enumeration. -/
inductive Chain
  | ChainX
  | Bitcoin
  | Ethereum
deriving DecidableEq

/-- `Chain::default()` is `Chain::ChainX`. -/
def Chain.default : Chain := Chain.ChainX

/-- The static `CHAINS` array backing `Chain::iterator()`. -/
def Chain.iterator : List Chain := [Chain.ChainX, Chain.Bitcoin, Chain.Ethereum]

/-- `AssetType` accounting-bucket enumeration. -/
inductive AssetType
  | Free
  | ReservedStaking
  | ReservedStakingRevocation
  | ReservedWithdrawal
  | ReservedDexSpot
  | ReservedDexFuture
  | ReservedCurrency
deriving DecidableEq

/-- The static `TYPES` array backing `AssetType::iterator()`. -/
def AssetType.iterator : List AssetType :=
  [AssetType.Free, AssetType.ReservedStaking, AssetType.ReservedStakingRevocation,
   AssetType.ReservedWithdrawal, AssetType.ReservedDexSpot, AssetType.ReservedDexFuture,
   AssetType.ReservedCurrency]

/-- `AssetType::default()` is `AssetType::Free`. -/
def AssetType.default : AssetType := AssetType.Free

/-- `AssetErr` enumeration. -/
inductive AssetErr
  | NotEnough
  | OverFlow
  | TotalAssetNotEnough
  | TotalAssetOverFlow
  | InvalidToken
  | InvalidAccount
deriving DecidableEq

/-- `AssetErr::info`. -/
def AssetErr.info : AssetErr → String
  | AssetErr.NotEnough => "balance too low for this account"
  | AssetErr.OverFlow => "balance too high for this account"
  | AssetErr.TotalAssetNotEnough => "total balance too low for this asset"
  | AssetErr.TotalAssetOverFlow => "total balance too high for this asset"
  | AssetErr.InvalidToken => "not a valid token for this account"
  | AssetErr.InvalidAccount => "account Locked"

/-- The per-character test closure inside `is_valid_token`: numbers
(0x30-0x39), capital letters (0x41-0x5A), lowercase letters (0x61-0x7A),
or one of 0x2D, 0x2E, 0x7C, 0x7E. -/
def token_char_ok (c : Nat) : Bool :=
  (0x30 ≤ c && c ≤ 0x39)
    || (0x41 ≤ c && c ≤ 0x5A)
    || (0x61 ≤ c && c ≤ 0x7A)
    || c == 0x2D
    || c == 0x2E
    || c == 0x7C
    || c == 0x7E

/-- `is_valid_token`: length check first (error on empty or longer than
`MAX_TOKEN_LEN`), then every byte must satisfy `token_char_ok`.  The charset
error message is paraphrased (same distinct static string role). -/
def is_valid_token (v : List Nat) : Except String Unit :=
  if MAX_TOKEN_LEN < v.length || v.isEmpty then
    Except.error "Token length is zero or too long."
  else if v.all token_char_ok then
    Except.ok ()
  else
    Except.error "Token can only use numbers, capital/lowercase letters or the four symbols."

/-- `is_valid_token_name`: length in [1, `MAX_TOKEN_LEN`], every byte a
visible ASCII char in [0x20, 0x7E]. -/
def is_valid_token_name (v : List Nat) : Except String Unit :=
  if MAX_TOKEN_LEN < v.length || v.isEmpty then
    Except.error "Token name is zero or too long."
  else if v.all (fun c => 0x20 ≤ c && c ≤ 0x7E) then
    Except.ok ()
  else
    Except.error "Token name can not use an invisiable ASCII char."

/-- `is_valid_desc`: length at most `MAX_DESC_LEN` (empty allowed), every
byte a visible ASCII char in [0x20, 0x7E]. -/
def is_valid_desc (v : List Nat) : Except String Unit :=
  if MAX_DESC_LEN < v.length then
    Except.error "Token desc too long"
  else if v.all (fun c => 0x20 ≤ c && c ≤ 0x7E) then
    Except.ok ()
  else
    Except.error "Desc can not use an invisiable ASCII char."

/-- `is_valid_memo`: the length bound is the externally configured
`Module::<T>::memo_len()`, passed here as `memo_len`. -/
def is_valid_memo (memo_len : Nat) (msg : List Nat) : Except String Unit :=
  if memo_len < msg.length then Except.error "memo is too long" else Except.ok ()

/-- The `Asset` descriptor struct. -/
structure Asset where
  token : Token
  token_name : Token
  chain : Chain
  precision : Precision
  desc : Desc
deriving DecidableEq

/-- `Asset::is_valid`: token, then token_name, then desc, short-circuiting
on the first failure (the `?` operator). -/
def Asset.is_valid (a : Asset) : Except String Unit :=
  match is_valid_token a.token with
  | Except.error e => Except.error e
  | Except.ok _ =>
    match is_valid_token_name a.token_name with
    | Except.error e => Except.error e
    | Except.ok _ => is_valid_desc a.desc

/-- `Asset::new`: build the candidate, validate it, and return it only when
validation succeeds. -/
def Asset.new (token : Token) (token_name : Token) (chain : Chain)
    (precision : Precision) (desc : Desc) : Except String Asset :=
  let a : Asset := ⟨token, token_name, chain, precision, desc⟩
  match a.is_valid with
  | Except.ok _ => Except.ok a
  | Except.error e => Except.error e

/-- `Asset::set_desc` (the sole mutator; performs no validation). -/
def Asset.set_desc (a : Asset) (desc : Desc) : Asset := { a with desc := desc }

/-- `saturating_add` of the unsigned balance type whose maximum value is `M`. -/
def saturating_add (M a b : Nat) : Nat := min (a + b) M

/-- `saturating_sub` of an unsigned balance type: truncated subtraction
(saturates at zero); this is exactly `Nat` subtraction. -/
def saturating_sub (a b : Nat) : Nat := a - b

/-- `PositiveImbalance<T>(T::Balance, Token, AssetType)`: funds created
without an equal and opposite accounting entry. -/
structure PositiveImbalance where
  amount : Nat
  token : Token
  type_ : AssetType
deriving DecidableEq

/-- `NegativeImbalance<T>(T::Balance, Token, AssetType)`: funds destroyed
without an equal and opposite accounting entry. -/
structure NegativeImbalance where
  amount : Nat
  token : Token
  type_ : AssetType
deriving DecidableEq

/-- `PositiveImbalance::new`. -/
def PositiveImbalance.new (amount : Nat) (token : Token) (type_ : AssetType) :
    PositiveImbalance := ⟨amount, token, type_⟩

/-- `NegativeImbalance::new`. -/
def NegativeImbalance.new (amount : Nat) (token : Token) (type_ : AssetType) :
    NegativeImbalance := ⟨amount, token, type_⟩

/-- `PositiveImbalance::zero()`; `module_token` stands for the external
constant `Module::<T>::TOKEN.to_vec()`. -/
def PositiveImbalance.zero (module_token : Token) : PositiveImbalance :=
  PositiveImbalance.new 0 module_token AssetType.Free

/-- `NegativeImbalance::zero()`. -/
def NegativeImbalance.zero (module_token : Token) : NegativeImbalance :=
  NegativeImbalance.new 0 module_token AssetType.Free

/-- `PositiveImbalance::drop_zero`: consume iff the amount is zero,
otherwise hand `self` back unchanged. -/
def PositiveImbalance.drop_zero (self : PositiveImbalance) :
    Except PositiveImbalance Unit :=
  if self.amount = 0 then Except.ok () else Except.error self

/-- `NegativeImbalance::drop_zero`. -/
def NegativeImbalance.drop_zero (self : NegativeImbalance) :
    Except NegativeImbalance Unit :=
  if self.amount = 0 then Except.ok () else Except.error self

/-- `PositiveImbalance::split`: amounts `min(self.0, amount)` and
`self.0 - first`, both outputs carrying `self`'s token and bucket;
`self` is `mem::forget`-ten (no store effect). -/
def PositiveImbalance.split (self : PositiveImbalance) (amount : Nat) :
    PositiveImbalance × PositiveImbalance :=
  let first := min self.amount amount
  let second := self.amount - first
  (⟨first, self.token, self.type_⟩, ⟨second, self.token, self.type_⟩)

/-- `NegativeImbalance::split`. -/
def NegativeImbalance.split (self : NegativeImbalance) (amount : Nat) :
    NegativeImbalance × NegativeImbalance :=
  let first := min self.amount amount
  let second := self.amount - first
  (⟨first, self.token, self.type_⟩, ⟨second, self.token, self.type_⟩)

/-- `PositiveImbalance::merge`: `self.0 = self.0.saturating_add(other.0)`,
`other` is `mem::forget`-ten; the result keeps `self`'s token and bucket. -/
def PositiveImbalance.merge (M : Nat) (self other : PositiveImbalance) :
    PositiveImbalance :=
  ⟨saturating_add M self.amount other.amount, self.token, self.type_⟩

/-- `NegativeImbalance::merge`. -/
def NegativeImbalance.merge (M : Nat) (self other : NegativeImbalance) :
    NegativeImbalance :=
  ⟨saturating_add M self.amount other.amount, self.token, self.type_⟩

/-- `PositiveImbalance::subsume`: the in-place variant of `merge`; the
updated `self` is returned explicitly. -/
def PositiveImbalance.subsume (M : Nat) (self other : PositiveImbalance) :
    PositiveImbalance :=
  { self with amount := saturating_add M self.amount other.amount }

/-- `NegativeImbalance::subsume`. -/
def NegativeImbalance.subsume (M : Nat) (self other : NegativeImbalance) :
    NegativeImbalance :=
  { self with amount := saturating_add M self.amount other.amount }

/-- `PositiveImbalance::offset`: with `a = self.0`, `b = other.0`, yields
`Ok(Self::new(a - b, self.1, self.2))` when `a >= b`, otherwise
`Err(NegativeImbalance::new(b - a, self.1, self.2))`; both branches tag the
output with `self`'s token and bucket. -/
def PositiveImbalance.offset (self : PositiveImbalance)
    (other : NegativeImbalance) : Except NegativeImbalance PositiveImbalance :=
  let a := self.amount
  let b := other.amount
  if b ≤ a then
    Except.ok (PositiveImbalance.new (a - b) self.token self.type_)
  else
    Except.error (NegativeImbalance.new (b - a) self.token self.type_)

/-- `NegativeImbalance::offset`. -/
def NegativeImbalance.offset (self : NegativeImbalance)
    (other : PositiveImbalance) : Except PositiveImbalance NegativeImbalance :=
  let a := self.amount
  let b := other.amount
  if b ≤ a then
    Except.ok (NegativeImbalance.new (a - b) self.token self.type_)
  else
    Except.error (PositiveImbalance.new (b - a) self.token self.type_)

/-- `PositiveImbalance::peek`. -/
def PositiveImbalance.peek (self : PositiveImbalance) : Nat := self.amount

/-- `NegativeImbalance::peek`. -/
def NegativeImbalance.peek (self : NegativeImbalance) : Nat := self.amount

/-- The `TotalAssetBalance<T>` storage map: asset symbol to bucket to
balance, absent entries reading as zero (`entry(..).or_default()`). -/
def Store := Token → AssetType → Nat

/-- `Drop for PositiveImbalance`: saturating-add the amount onto
`TotalAssetBalance[self.1][self.2]`. -/
def PositiveImbalance.drop (M : Nat) (self : PositiveImbalance) (s : Store) :
    Store :=
  fun tok ty =>
    if tok = self.token ∧ ty = self.type_ then
      saturating_add M (s tok ty) self.amount
    else s tok ty

/-- `Drop for NegativeImbalance`: saturating-sub the amount from
`TotalAssetBalance[self.1][self.2]` (never below zero). -/
def NegativeImbalance.drop (self : NegativeImbalance) (s : Store) : Store :=
  fun tok ty =>
    if tok = self.token ∧ ty = self.type_ then
      saturating_sub (s tok ty) self.amount
    else s tok ty

/-! ## Sequence harness for the conservation invariant

A live token of either sign, a language of structural operations over a
list of live tokens (by position), and finalization of the remaining
tokens through the drop handlers.  The operations mirror the source: they
consume their inputs structurally and never touch the store; only
finalization does. -/

/-- A live imbalance token of either sign. -/
inductive Imb
  | pos : PositiveImbalance → Imb
  | neg : NegativeImbalance → Imb
deriving DecidableEq

/-- The signed value of a live token: `+amount` for positive, `-amount`
for negative. -/
def Imb.signedVal : Imb → Int
  | Imb.pos p => (p.amount : Int)
  | Imb.neg n => -(n.amount : Int)

/-- The raw amount carried by a live token. -/
def Imb.amountOf : Imb → Nat
  | Imb.pos p => p.amount
  | Imb.neg n => n.amount

/-- The `(symbol, bucket)` tag of a live token. -/
def Imb.key : Imb → Token × AssetType
  | Imb.pos p => (p.token, p.type_)
  | Imb.neg n => (n.token, n.type_)

/-- Total signed value of a list of live tokens. -/
def signedSum (ts : List Imb) : Int := (ts.map Imb.signedVal).sum

/-- One structural operation on the list of live tokens, by positions. -/
inductive Op
  | split (i : Nat) (k : Nat)
  | merge (i : Nat) (j : Nat)
  | subsume (i : Nat) (j : Nat)
  | offset (i : Nat) (j : Nat)
deriving DecidableEq

/-- Remove the tokens at two distinct positions (larger index first, so the
smaller index still refers to the same element). -/
def removeTwo (ts : List Imb) (i j : Nat) : List Imb :=
  (ts.eraseIdx (max i j)).eraseIdx (min i j)

/-- Apply one structural operation.  `none` when an index is out of range,
the two positions coincide, or the signs do not fit the operation.  The
tokens produced are exactly those of the source operations; the consumed
tokens disappear without any store effect (`mem::forget`). -/
def applyOp (M : Nat) (ts : List Imb) : Op → Option (List Imb)
  | Op.split i k =>
    match ts[i]? with
    | some (Imb.pos p) =>
      some (ts.eraseIdx i ++ [Imb.pos (p.split k).1, Imb.pos (p.split k).2])
    | some (Imb.neg n) =>
      some (ts.eraseIdx i ++ [Imb.neg (n.split k).1, Imb.neg (n.split k).2])
    | none => none
  | Op.merge i j =>
    if i = j then none else
    match ts[i]?, ts[j]? with
    | some (Imb.pos p), some (Imb.pos q) =>
      some (removeTwo ts i j ++ [Imb.pos (p.merge M q)])
    | some (Imb.neg p), some (Imb.neg q) =>
      some (removeTwo ts i j ++ [Imb.neg (p.merge M q)])
    | _, _ => none
  | Op.subsume i j =>
    if i = j then none else
    match ts[i]?, ts[j]? with
    | some (Imb.pos p), some (Imb.pos q) =>
      some (removeTwo ts i j ++ [Imb.pos (p.subsume M q)])
    | some (Imb.neg p), some (Imb.neg q) =>
      some (removeTwo ts i j ++ [Imb.neg (p.subsume M q)])
    | _, _ => none
  | Op.offset i j =>
    if i = j then none else
    match ts[i]?, ts[j]? with
    | some (Imb.pos p), some (Imb.neg q) =>
      some (removeTwo ts i j ++
        [match p.offset q with
         | Except.ok r => Imb.pos r
         | Except.error r => Imb.neg r])
    | some (Imb.neg p), some (Imb.pos q) =>
      some (removeTwo ts i j ++
        [match p.offset q with
         | Except.ok r => Imb.neg r
         | Except.error r => Imb.pos r])
    | _, _ => none

/-- Run a sequence of structural operations. -/
def runOps (M : Nat) : List Op → List Imb → Option (List Imb)
  | [], ts => some ts
  | op :: rest, ts =>
    match applyOp M ts op with
    | some ts' => runOps M rest ts'
    | none => none

/-- One operation does not hit the saturation cap: only `merge`/`subsume`
can saturate (their `saturating_add`). -/
def stepNoSat (M : Nat) (ts : List Imb) : Op → Bool
  | Op.merge i j =>
    match ts[i]?, ts[j]? with
    | some a, some b => decide (a.amountOf + b.amountOf ≤ M)
    | _, _ => true
  | Op.subsume i j =>
    match ts[i]?, ts[j]? with
    | some a, some b => decide (a.amountOf + b.amountOf ≤ M)
    | _, _ => true
  | _ => true

/-- No operation along the run hits the saturation cap. -/
def runNoSat (M : Nat) : List Op → List Imb → Bool
  | [], _ => true
  | op :: rest, ts =>
    stepNoSat M ts op &&
      (match applyOp M ts op with
       | some ts' => runNoSat M rest ts'
       | none => true)

/-- Finalize one live token against the store (its drop handler). -/
def Imb.dropApply (M : Nat) (t : Imb) (s : Store) : Store :=
  match t with
  | Imb.pos p => p.drop M s
  | Imb.neg n => n.drop s

/-- Finalize all remaining live tokens, in order. -/
def finalizeAll (M : Nat) (ts : List Imb) (s : Store) : Store :=
  ts.foldl (fun s t => Imb.dropApply M t s) s

/-- Finalizing one token does not saturate: a positive drop stays within
the cap, a negative drop is fully covered by the store entry. -/
def dropNoSat (M : Nat) (t : Imb) (s : Store) : Bool :=
  match t with
  | Imb.pos p => decide (s p.token p.type_ + p.amount ≤ M)
  | Imb.neg n => decide (n.amount ≤ s n.token n.type_)

/-- No finalization along the list saturates. -/
def finalizeNoSat (M : Nat) : List Imb → Store → Bool
  | [], _ => true
  | t :: rest, s => dropNoSat M t s && finalizeNoSat M rest (Imb.dropApply M t s)

/-- Net signed value of the tokens whose tag is `k`. -/
def signedSumAt (k : Token × AssetType) (ts : List Imb) : Int :=
  ((ts.filter (fun t => decide (t.key = k))).map Imb.signedVal).sum

/-- The distinct tags occurring in a list of live tokens. -/
def keysOf (ts : List Imb) : List (Token × AssetType) := (ts.map Imb.key).dedup

/-- The store total over a list of tags. -/
def storeTotal (keys : List (Token × AssetType)) (s : Store) : Nat :=
  (keys.map (fun k => s k.1 k.2)).sum

/-! ## Lemmas for the conservation invariant -/

lemma signedSum_nil : signedSum [] = 0 := rfl

lemma signedSum_cons (t : Imb) (ts : List Imb) :
    signedSum (t :: ts) = t.signedVal + signedSum ts := by
  simp [signedSum]

lemma signedSum_append (xs ys : List Imb) :
    signedSum (xs ++ ys) = signedSum xs + signedSum ys := by
  simp [signedSum]

lemma signedSum_eraseIdx :
    ∀ (ts : List Imb) (i : Nat) (t : Imb), ts[i]? = some t →
      signedSum (ts.eraseIdx i) = signedSum ts - t.signedVal := by
  intro ts
  induction ts with
  | nil =>
    intro i t h
    simp at h
  | cons a as ih =>
    intro i t h
    cases i with
    | zero =>
      simp at h
      subst h
      simp [List.eraseIdx, signedSum_cons]
    | succ n =>
      simp at h
      have hrec := ih n t h
      simp [List.eraseIdx, signedSum_cons, hrec]
      ring

lemma getElem?_eraseIdx_of_lt :
    ∀ (ts : List Imb) (i j : Nat), i < j → (ts.eraseIdx j)[i]? = ts[i]? := by
  intro ts
  induction ts with
  | nil =>
    intro i j _
    simp [List.eraseIdx]
  | cons a as ih =>
    intro i j h
    cases j with
    | zero => exact absurd h (Nat.not_lt_zero i)
    | succ m =>
      cases i with
      | zero => simp [List.eraseIdx]
      | succ k =>
        simp [List.eraseIdx]
        exact ih k m (by omega)

lemma removeTwo_signedSum (ts : List Imb) (i j : Nat) (hij : i ≠ j)
    (ta tb : Imb) (ha : ts[i]? = some ta) (hb : ts[j]? = some tb) :
    signedSum (removeTwo ts i j) =
      signedSum ts - ta.signedVal - tb.signedVal := by
  rcases Nat.lt_or_ge i j with h | h
  · have hmax : max i j = j := by omega
    have hmin : min i j = i := by omega
    rw [removeTwo, hmax, hmin]
    have h1 : (ts.eraseIdx j)[i]? = some ta := by
      rw [getElem?_eraseIdx_of_lt ts i j h]
      exact ha
    rw [signedSum_eraseIdx _ i ta h1, signedSum_eraseIdx _ j tb hb]
    ring
  · have hj : j < i := by omega
    have hmax : max i j = i := by omega
    have hmin : min i j = j := by omega
    rw [removeTwo, hmax, hmin]
    have h1 : (ts.eraseIdx i)[j]? = some tb := by
      rw [getElem?_eraseIdx_of_lt ts j i hj]
      exact hb
    rw [signedSum_eraseIdx _ j tb h1, signedSum_eraseIdx _ i ta ha]

lemma applyOp_signedSum (M : Nat) (ts ts' : List Imb) (op : Op)
    (h : applyOp M ts op = some ts') (hs : stepNoSat M ts op = true) :
    signedSum ts' = signedSum ts := by
  cases op with
  | split i k =>
    simp only [applyOp] at h
    cases hti : ts[i]? with
    | none =>
      rw [hti] at h
      simp at h
    | some t =>
      rw [hti] at h
      cases t with
      | pos p =>
        simp at h
        subst h
        rw [signedSum_append, signedSum_eraseIdx ts i _ hti]
        simp [signedSum, Imb.signedVal, PositiveImbalance.split]
      | neg n =>
        simp at h
        subst h
        rw [signedSum_append, signedSum_eraseIdx ts i _ hti]
        simp [signedSum, Imb.signedVal, NegativeImbalance.split]
        omega
  | merge i j =>
    by_cases hij : i = j
    · simp [applyOp, hij] at h
    · simp only [applyOp, if_neg hij] at h
      cases hti : ts[i]? with
      | none =>
        rw [hti] at h
        simp at h
      | some ta =>
        cases htj : ts[j]? with
        | none =>
          rw [hti, htj] at h
          cases ta <;> simp at h
        | some tb =>
          rw [hti, htj] at h
          simp only [stepNoSat] at hs
          rw [hti, htj] at hs
          rw [decide_eq_true_eq] at hs
          cases ta with
          | pos p =>
            cases tb with
            | pos q =>
              simp at h
              subst h
              rw [signedSum_append, removeTwo_signedSum ts i j hij _ _ hti htj]
              simp only [Imb.amountOf] at hs
              simp [signedSum, Imb.signedVal, PositiveImbalance.merge,
                saturating_add]
              omega
            | neg q => simp at h
          | neg p =>
            cases tb with
            | pos q => simp at h
            | neg q =>
              simp at h
              subst h
              rw [signedSum_append, removeTwo_signedSum ts i j hij _ _ hti htj]
              simp only [Imb.amountOf] at hs
              simp [signedSum, Imb.signedVal, NegativeImbalance.merge,
                saturating_add]
              omega
  | subsume i j =>
    by_cases hij : i = j
    · simp [applyOp, hij] at h
    · simp only [applyOp, if_neg hij] at h
      cases hti : ts[i]? with
      | none =>
        rw [hti] at h
        simp at h
      | some ta =>
        cases htj : ts[j]? with
        | none =>
          rw [hti, htj] at h
          cases ta <;> simp at h
        | some tb =>
          rw [hti, htj] at h
          simp only [stepNoSat] at hs
          rw [hti, htj] at hs
          rw [decide_eq_true_eq] at hs
          cases ta with
          | pos p =>
            cases tb with
            | pos q =>
              simp at h
              subst h
              rw [signedSum_append, removeTwo_signedSum ts i j hij _ _ hti htj]
              simp only [Imb.amountOf] at hs
              simp [signedSum, Imb.signedVal, PositiveImbalance.subsume,
                saturating_add]
              omega
            | neg q => simp at h
          | neg p =>
            cases tb with
            | pos q => simp at h
            | neg q =>
              simp at h
              subst h
              rw [signedSum_append, removeTwo_signedSum ts i j hij _ _ hti htj]
              simp only [Imb.amountOf] at hs
              simp [signedSum, Imb.signedVal, NegativeImbalance.subsume,
                saturating_add]
              omega
  | offset i j =>
    by_cases hij : i = j
    · simp [applyOp, hij] at h
    · simp only [applyOp, if_neg hij] at h
      cases hti : ts[i]? with
      | none =>
        rw [hti] at h
        simp at h
      | some ta =>
        cases htj : ts[j]? with
        | none =>
          rw [hti, htj] at h
          cases ta <;> simp at h
        | some tb =>
          rw [hti, htj] at h
          cases ta with
          | pos p =>
            cases tb with
            | pos q => simp at h
            | neg q =>
              simp at h
              subst h
              rw [signedSum_append, removeTwo_signedSum ts i j hij _ _ hti htj]
              rcases le_or_lt q.amount p.amount with hba | hba
              · simp [signedSum, Imb.signedVal, PositiveImbalance.offset, hba,
                  PositiveImbalance.new]
              · simp [signedSum, Imb.signedVal, PositiveImbalance.offset,
                  Nat.not_le.mpr hba, NegativeImbalance.new]
                omega
          | neg p =>
            cases tb with
            | neg q => simp at h
            | pos q =>
              simp at h
              subst h
              rw [signedSum_append, removeTwo_signedSum ts i j hij _ _ hti htj]
              rcases le_or_lt q.amount p.amount with hba | hba
              · simp [signedSum, Imb.signedVal, NegativeImbalance.offset, hba,
                  NegativeImbalance.new]
              · simp [signedSum, Imb.signedVal, NegativeImbalance.offset,
                  Nat.not_le.mpr hba, PositiveImbalance.new]
                omega

lemma runOps_take_signedSum (M : Nat) :
    ∀ (ops : List Op) (ts : List Imb), runNoSat M ops ts = true →
      ∀ (n : Nat) (ts' : List Imb), runOps M (ops.take n) ts = some ts' →
        signedSum ts' = signedSum ts := by
  intro ops
  induction ops with
  | nil =>
    intro ts _ n ts' h
    simp [runOps] at h
    rw [← h]
  | cons op rest ih =>
    intro ts hs n ts' h
    cases n with
    | zero =>
      simp [runOps] at h
      rw [← h]
    | succ m =>
      simp only [List.take_succ_cons, runOps] at h
      cases happ : applyOp M ts op with
      | none =>
        rw [happ] at h
        simp at h
      | some ts1 =>
        rw [happ] at h
        have hs' : stepNoSat M ts op = true ∧ runNoSat M rest ts1 = true := by
          simp only [runNoSat] at hs
          rw [happ, Bool.and_eq_true] at hs
          exact hs
        have h1 := applyOp_signedSum M ts ts1 op happ hs'.1
        have h2 := ih ts1 hs'.2 m ts' h
        rw [h2, h1]

lemma signedSumAt_cons (k : Token × AssetType) (t : Imb) (ts : List Imb) :
    signedSumAt k (t :: ts) =
      (if t.key = k then t.signedVal else 0) + signedSumAt k ts := by
  by_cases h : t.key = k
  · simp [signedSumAt, List.filter, h]
  · simp [signedSumAt, List.filter, h]

lemma finalizeAll_cons (M : Nat) (t : Imb) (rest : List Imb) (s : Store) :
    finalizeAll M (t :: rest) s = finalizeAll M rest (Imb.dropApply M t s) :=
  rfl

lemma dropApply_point (M : Nat) (t : Imb) (s : Store)
    (hns : dropNoSat M t s = true) (tok : Token) (ty : AssetType) :
    ((Imb.dropApply M t s) tok ty : Int) =
      (s tok ty : Int) + (if t.key = (tok, ty) then t.signedVal else 0) := by
  cases t with
  | pos p =>
    simp only [dropNoSat, decide_eq_true_eq] at hns
    by_cases hk : tok = p.token ∧ ty = p.type_
    · obtain ⟨h1, h2⟩ := hk
      subst h1
      subst h2
      simp [Imb.dropApply, PositiveImbalance.drop, saturating_add, Imb.key,
        Imb.signedVal]
      omega
    · have hk2 : ¬ (Imb.key (Imb.pos p) = (tok, ty)) := by
        simp only [Imb.key, Prod.mk.injEq]
        intro hcon
        exact hk ⟨hcon.1.symm, hcon.2.symm⟩
      simp [Imb.dropApply, PositiveImbalance.drop, hk, hk2]
  | neg n =>
    simp only [dropNoSat, decide_eq_true_eq] at hns
    by_cases hk : tok = n.token ∧ ty = n.type_
    · obtain ⟨h1, h2⟩ := hk
      subst h1
      subst h2
      simp [Imb.dropApply, NegativeImbalance.drop, saturating_sub, Imb.key,
        Imb.signedVal]
      omega
    · have hk2 : ¬ (Imb.key (Imb.neg n) = (tok, ty)) := by
        simp only [Imb.key, Prod.mk.injEq]
        intro hcon
        exact hk ⟨hcon.1.symm, hcon.2.symm⟩
      simp [Imb.dropApply, NegativeImbalance.drop, hk, hk2]

lemma finalizeAll_point (M : Nat) :
    ∀ (ts : List Imb) (s : Store), finalizeNoSat M ts s = true →
      ∀ (tok : Token) (ty : AssetType),
        ((finalizeAll M ts s) tok ty : Int) =
          (s tok ty : Int) + signedSumAt (tok, ty) ts := by
  intro ts
  induction ts with
  | nil =>
    intro s _ tok ty
    simp [finalizeAll, signedSumAt]
  | cons t rest ih =>
    intro s hs tok ty
    have hs' : dropNoSat M t s = true ∧
        finalizeNoSat M rest (Imb.dropApply M t s) = true := by
      simp only [finalizeNoSat, Bool.and_eq_true] at hs
      exact hs
    have hrec := ih (Imb.dropApply M t s) hs'.2 tok ty
    have hpt := dropApply_point M t s hs'.1 tok ty
    rw [finalizeAll_cons, signedSumAt_cons, hrec, hpt]
    ring

lemma sum_map_add_int {α : Type} (keys : List α) (f g : α → Int) :
    ((keys.map (fun k => f k + g k)).sum) = (keys.map f).sum + (keys.map g).sum := by
  induction keys with
  | nil => simp
  | cons a as ih =>
    simp [ih]
    ring

lemma sum_if_none :
    ∀ (keys : List (Token × AssetType)) (k0 : Token × AssetType) (v : Int),
      k0 ∉ keys → ((keys.map (fun k => if k0 = k then v else 0)).sum) = 0 := by
  intro keys
  induction keys with
  | nil =>
    intro k0 v _
    simp
  | cons a as ih =>
    intro k0 v hnin
    simp only [List.mem_cons] at hnin
    push_neg at hnin
    simp [hnin.1, ih k0 v hnin.2]

lemma sum_if_single :
    ∀ (keys : List (Token × AssetType)) (k0 : Token × AssetType) (v : Int),
      keys.Nodup → k0 ∈ keys →
      ((keys.map (fun k => if k0 = k then v else 0)).sum) = v := by
  intro keys
  induction keys with
  | nil =>
    intro k0 v _ hin
    simp at hin
  | cons a as ih =>
    intro k0 v hnd hin
    rcases List.mem_cons.mp hin with h | h
    · subst h
      have hnotin : k0 ∉ as := (List.nodup_cons.mp hnd).1
      simp [sum_if_none as k0 v hnotin]
    · have hne : k0 ≠ a := by
        rintro rfl
        exact (List.nodup_cons.mp hnd).1 h
      simp [hne, ih k0 v (List.nodup_cons.mp hnd).2 h]

lemma sum_signedSumAt :
    ∀ (ts : List Imb) (keys : List (Token × AssetType)), keys.Nodup →
      (∀ t ∈ ts, t.key ∈ keys) →
      ((keys.map (fun k => signedSumAt k ts)).sum) = signedSum ts := by
  intro ts
  induction ts with
  | nil =>
    intro keys _ _
    simp [signedSumAt, signedSum]
  | cons t rest ih =>
    intro keys hnd hcov
    have hfun : (fun k => signedSumAt k (t :: rest)) =
        (fun k => (if t.key = k then t.signedVal else 0) + signedSumAt k rest) :=
      funext fun k => signedSumAt_cons k t rest
    rw [hfun, sum_map_add_int,
      sum_if_single keys t.key t.signedVal hnd (hcov t (by simp)),
      ih keys hnd (fun x hx => hcov x (by simp [hx])), signedSum_cons]

lemma storeTotal_cast (keys : List (Token × AssetType)) (s : Store) :
    ((storeTotal keys s : Nat) : Int) =
      (keys.map (fun k => (s k.1 k.2 : Int))).sum := by
  induction keys with
  | nil => simp [storeTotal]
  | cons a as ih =>
    rw [storeTotal, Nat.cast_list_sum, List.map_map]
    rfl

lemma finalize_total (M : Nat) (ts : List Imb) (s : Store)
    (hs : finalizeNoSat M ts s = true) (keys : List (Token × AssetType))
    (hnd : keys.Nodup) (hcov : ∀ t ∈ ts, t.key ∈ keys) :
    ((storeTotal keys (finalizeAll M ts s) : Nat) : Int) =
      ((storeTotal keys s : Nat) : Int) + signedSum ts := by
  rw [storeTotal_cast, storeTotal_cast]
  have hmap : keys.map (fun k => ((finalizeAll M ts s) k.1 k.2 : Int)) =
      keys.map (fun k => (s k.1 k.2 : Int) + signedSumAt k ts) := by
    apply List.map_congr_left
    intro k _
    rw [finalizeAll_point M ts s hs k.1 k.2]
  rw [hmap, sum_map_add_int, sum_signedSumAt ts keys hnd hcov]

/-! ## Theorems -/

/-- C1: `PositiveImbalance(a).offset(NegativeImbalance(b))` yields
`Ok(Positive(a-b))` when `a ≥ b` and `Err(Negative(b-a))` when `a < b`,
symmetrically for `NegativeImbalance.offset`, and on both branches the
signed value of the single output token is the signed sum `a - b` of the
two inputs, so `offset` conserves total signed value. -/
theorem offset_correct (p : PositiveImbalance) (n : NegativeImbalance) :
    (n.amount ≤ p.amount →
      p.offset n = Except.ok
        (PositiveImbalance.new (p.amount - n.amount) p.token p.type_))
    ∧ (p.amount < n.amount →
      p.offset n = Except.error
        (NegativeImbalance.new (n.amount - p.amount) p.token p.type_))
    ∧ (p.amount ≤ n.amount →
      n.offset p = Except.ok
        (NegativeImbalance.new (n.amount - p.amount) n.token n.type_))
    ∧ (n.amount < p.amount →
      n.offset p = Except.error
        (PositiveImbalance.new (p.amount - n.amount) n.token n.type_))
    ∧ (match p.offset n with
       | Except.ok r => Imb.signedVal (Imb.pos r)
       | Except.error r => Imb.signedVal (Imb.neg r)) =
        (p.amount : Int) - (n.amount : Int)
    ∧ (match n.offset p with
       | Except.ok r => Imb.signedVal (Imb.neg r)
       | Except.error r => Imb.signedVal (Imb.pos r)) =
        (p.amount : Int) - (n.amount : Int) := by
  refine ⟨?_, ?_, ?_, ?_, ?_, ?_⟩
  · intro h
    simp [PositiveImbalance.offset, h]
  · intro h
    simp [PositiveImbalance.offset, Nat.not_le.mpr h]
  · intro h
    simp [NegativeImbalance.offset, h]
  · intro h
    simp [NegativeImbalance.offset, Nat.not_le.mpr h]
  · rcases le_or_lt n.amount p.amount with h | h
    · simp [PositiveImbalance.offset, h, Imb.signedVal, PositiveImbalance.new]
    · simp [PositiveImbalance.offset, Nat.not_le.mpr h, Imb.signedVal,
        NegativeImbalance.new]
      show -((n.amount - p.amount : Nat) : Int) =
        (p.amount : Int) - (n.amount : Int)
      omega
  · rcases le_or_lt p.amount n.amount with h | h
    · simp [NegativeImbalance.offset, h, Imb.signedVal, NegativeImbalance.new]
    · simp [NegativeImbalance.offset, Nat.not_le.mpr h, Imb.signedVal,
        PositiveImbalance.new]
      show ((p.amount - n.amount : Nat) : Int) =
        (p.amount : Int) - (n.amount : Int)
      omega

/-- Witness for C1 at `a = 2`, `b = 5`. -/
theorem offset_correct_witness :
    (PositiveImbalance.new 2 [1] AssetType.Free).offset
        (NegativeImbalance.new 5 [1] AssetType.Free) =
      Except.error (NegativeImbalance.new 3 [1] AssetType.Free) :=
  (offset_correct (PositiveImbalance.new 2 [1] AssetType.Free)
    (NegativeImbalance.new 5 [1] AssetType.Free)).2.1 (by decide)

/-- C3: `split(k)` returns two tokens of the same sign, symbol and bucket
as the input, with amounts `min(a, k)` and `a - min(a, k)`, summing to `a`,
for every `k` (including `k = 0` and `k > a`); no store effect occurs. -/
theorem split_correct (p : PositiveImbalance) (n : NegativeImbalance)
    (k : Nat) :
    ((p.split k).1.amount = min p.amount k
      ∧ (p.split k).2.amount = p.amount - min p.amount k
      ∧ (p.split k).1.amount + (p.split k).2.amount = p.amount
      ∧ (p.split k).1.token = p.token ∧ (p.split k).2.token = p.token
      ∧ (p.split k).1.type_ = p.type_ ∧ (p.split k).2.type_ = p.type_)
    ∧ ((n.split k).1.amount = min n.amount k
      ∧ (n.split k).2.amount = n.amount - min n.amount k
      ∧ (n.split k).1.amount + (n.split k).2.amount = n.amount
      ∧ (n.split k).1.token = n.token ∧ (n.split k).2.token = n.token
      ∧ (n.split k).1.type_ = n.type_ ∧ (n.split k).2.type_ = n.type_) := by
  refine ⟨⟨rfl, rfl, ?_, rfl, rfl, rfl, rfl⟩, ⟨rfl, rfl, ?_, rfl, rfl, rfl, rfl⟩⟩
  · show min p.amount k + (p.amount - min p.amount k) = p.amount
    omega
  · show min n.amount k + (n.amount - min n.amount k) = n.amount
    omega

/-- C5: `merge` and `subsume` combine two same-sign tokens by saturating
addition of their amounts (capped at the balance maximum `M`), keeping the
symbol and bucket of `self`; merging `Positive(3)` and `Positive(5)` gives
`Positive(8)` (when `8 ≤ M`), and finalizing that result raises the tagged
entry of the store by exactly 8 (when no saturation occurs). -/
theorem merge_correct (M : Nat) (p q : PositiveImbalance)
    (n m : NegativeImbalance) (s : Store) (t t2 : Token)
    (ty ty2 : AssetType) :
    ((p.merge M q).amount = min (p.amount + q.amount) M
      ∧ (p.merge M q).token = p.token ∧ (p.merge M q).type_ = p.type_)
    ∧ ((p.subsume M q).amount = min (p.amount + q.amount) M
      ∧ (p.subsume M q).token = p.token ∧ (p.subsume M q).type_ = p.type_)
    ∧ ((n.merge M m).amount = min (n.amount + m.amount) M
      ∧ (n.merge M m).token = n.token ∧ (n.merge M m).type_ = n.type_)
    ∧ ((n.subsume M m).amount = min (n.amount + m.amount) M
      ∧ (n.subsume M m).token = n.token ∧ (n.subsume M m).type_ = n.type_)
    ∧ (8 ≤ M →
        (PositiveImbalance.new 3 t ty).merge M (PositiveImbalance.new 5 t2 ty2)
          = PositiveImbalance.new 8 t ty)
    ∧ (s t ty + 8 ≤ M →
        ((PositiveImbalance.new 8 t ty).drop M s) t ty = s t ty + 8) := by
  refine ⟨⟨rfl, rfl, rfl⟩, ⟨rfl, rfl, rfl⟩, ⟨rfl, rfl, rfl⟩, ⟨rfl, rfl, rfl⟩,
    ?_, ?_⟩
  · intro h
    simp [PositiveImbalance.merge, PositiveImbalance.new, saturating_add]
    omega
  · intro h
    simp [PositiveImbalance.drop, PositiveImbalance.new, saturating_add]
    omega

/-- Witness for C5 at `M = 100`, a constant-7 store. -/
theorem merge_correct_witness :
    (PositiveImbalance.new 3 [1] AssetType.Free).merge 100
        (PositiveImbalance.new 5 [2] AssetType.ReservedStaking) =
      PositiveImbalance.new 8 [1] AssetType.Free
    ∧ ((PositiveImbalance.new 8 [1] AssetType.Free).drop 100
        (fun _ _ => 7)) [1] AssetType.Free = 15 :=
  ⟨(merge_correct 100 (PositiveImbalance.new 3 [1] AssetType.Free)
      (PositiveImbalance.new 5 [2] AssetType.ReservedStaking)
      (NegativeImbalance.new 0 [] AssetType.Free)
      (NegativeImbalance.new 0 [] AssetType.Free) (fun _ _ => 7)
      [1] [2] AssetType.Free AssetType.ReservedStaking).2.2.2.2.1 (by decide),
   (merge_correct 100 (PositiveImbalance.new 3 [1] AssetType.Free)
      (PositiveImbalance.new 5 [2] AssetType.ReservedStaking)
      (NegativeImbalance.new 0 [] AssetType.Free)
      (NegativeImbalance.new 0 [] AssetType.Free) (fun _ _ => 7)
      [1] [2] AssetType.Free AssetType.ReservedStaking).2.2.2.2.2 (by decide)⟩

/-- C9: `drop_zero` consumes the token (returning `Ok(())`) exactly when
its amount is zero, and otherwise hands the very same token back in the
`Err` branch, unchanged. -/
theorem drop_zero_correct (p : PositiveImbalance) (n : NegativeImbalance) :
    (p.drop_zero = Except.ok () ↔ p.amount = 0)
    ∧ (p.amount ≠ 0 → p.drop_zero = Except.error p)
    ∧ (n.drop_zero = Except.ok () ↔ n.amount = 0)
    ∧ (n.amount ≠ 0 → n.drop_zero = Except.error n) := by
  refine ⟨?_, ?_, ?_, ?_⟩
  · by_cases h : p.amount = 0 <;> simp [PositiveImbalance.drop_zero, h]
  · intro h
    simp [PositiveImbalance.drop_zero, h]
  · by_cases h : n.amount = 0 <;> simp [NegativeImbalance.drop_zero, h]
  · intro h
    simp [NegativeImbalance.drop_zero, h]

/-- Witness for C9 at amounts 0 and 4. -/
theorem drop_zero_correct_witness :
    ((PositiveImbalance.new 0 [1] AssetType.Free).drop_zero = Except.ok ()
      ↔ (PositiveImbalance.new 0 [1] AssetType.Free).amount = 0)
    ∧ (NegativeImbalance.new 4 [1] AssetType.Free).drop_zero =
        Except.error (NegativeImbalance.new 4 [1] AssetType.Free) :=
  ⟨(drop_zero_correct (PositiveImbalance.new 0 [1] AssetType.Free)
      (NegativeImbalance.new 4 [1] AssetType.Free)).1,
   (drop_zero_correct (PositiveImbalance.new 0 [1] AssetType.Free)
      (NegativeImbalance.new 4 [1] AssetType.Free)).2.2.2 (by decide)⟩

/-- C10: on both branches of `offset` (including the opposite-sign
remainder), the output token carries the symbol and bucket of `self`,
never those of `other`, even when the two tags differ. -/
theorem offset_tags (p : PositiveImbalance) (n : NegativeImbalance)
    (_hdiff : p.token ≠ n.token ∨ p.type_ ≠ n.type_) :
    (∀ r, p.offset n = Except.ok r → r.token = p.token ∧ r.type_ = p.type_)
    ∧ (∀ r, p.offset n = Except.error r →
        r.token = p.token ∧ r.type_ = p.type_)
    ∧ (∀ r, n.offset p = Except.ok r → r.token = n.token ∧ r.type_ = n.type_)
    ∧ (∀ r, n.offset p = Except.error r →
        r.token = n.token ∧ r.type_ = n.type_) := by
  refine ⟨?_, ?_, ?_, ?_⟩ <;> intro r h
  · simp only [PositiveImbalance.offset] at h
    split at h
    · injection h with h
      subst h
      exact ⟨rfl, rfl⟩
    · injection h
  · simp only [PositiveImbalance.offset] at h
    split at h
    · injection h
    · injection h with h
      subst h
      exact ⟨rfl, rfl⟩
  · simp only [NegativeImbalance.offset] at h
    split at h
    · injection h with h
      subst h
      exact ⟨rfl, rfl⟩
    · injection h
  · simp only [NegativeImbalance.offset] at h
    split at h
    · injection h
    · injection h with h
      subst h
      exact ⟨rfl, rfl⟩

/-- Witness for C10: offsetting differently tagged tokens, the `Err`
remainder keeps `self`'s tag. -/
theorem offset_tags_witness :
    (NegativeImbalance.new 3 [1] AssetType.Free).token = [1]
    ∧ (NegativeImbalance.new 3 [1] AssetType.Free).type_ = AssetType.Free :=
  (offset_tags (PositiveImbalance.new 2 [1] AssetType.Free)
    (NegativeImbalance.new 5 [2] AssetType.ReservedStaking)
    (Or.inl (by decide))).2.1 (NegativeImbalance.new 3 [1] AssetType.Free)
    (by rfl)

/-- C7: `is_valid_token` succeeds exactly when the length is in [1, 32] and
every byte is a digit, an ASCII letter, or one of 0x2D, 0x2E, 0x7C, 0x7E;
its two failure messages distinguish length violations from charset
violations; a space byte (0x20) or length 33 makes it fail. -/
theorem is_valid_token_correct (v : List Nat) :
    (is_valid_token v = Except.ok () ↔
      (1 ≤ v.length ∧ v.length ≤ 32 ∧ ∀ c ∈ v,
        (0x30 ≤ c ∧ c ≤ 0x39) ∨ (0x41 ≤ c ∧ c ≤ 0x5A) ∨
          (0x61 ≤ c ∧ c ≤ 0x7A) ∨ c = 0x2D ∨ c = 0x2E ∨ c = 0x7C ∨ c = 0x7E))
    ∧ (v.length = 0 ∨ 32 < v.length →
        is_valid_token v = Except.error "Token length is zero or too long.")
    ∧ (1 ≤ v.length → v.length ≤ 32 → (∃ c ∈ v, token_char_ok c = false) →
        is_valid_token v = Except.error
          "Token can only use numbers, capital/lowercase letters or the four symbols.")
    ∧ is_valid_token [0x20] = Except.error
        "Token can only use numbers, capital/lowercase letters or the four symbols."
    ∧ is_valid_token (List.replicate 33 0x30) =
        Except.error "Token length is zero or too long."
    ∧ ("Token length is zero or too long." : String) ≠
        "Token can only use numbers, capital/lowercase letters or the four symbols." := by
  have hchar : ∀ c : Nat, token_char_ok c = true ↔
      ((0x30 ≤ c ∧ c ≤ 0x39) ∨ (0x41 ≤ c ∧ c ≤ 0x5A) ∨
        (0x61 ≤ c ∧ c ≤ 0x7A) ∨ c = 0x2D ∨ c = 0x2E ∨ c = 0x7C ∨ c = 0x7E) := by
    intro c
    simp [token_char_ok]
    omega
  refine ⟨?_, ?_, ?_, by rfl, by rfl, by decide⟩
  · constructor
    · intro h
      by_cases hlen : MAX_TOKEN_LEN < v.length || v.isEmpty
      · simp [is_valid_token, hlen] at h
      · by_cases hall : v.all token_char_ok
        · simp [MAX_TOKEN_LEN, List.isEmpty_iff, Bool.or_eq_true,
            decide_eq_true_eq] at hlen
          push_neg at hlen
          refine ⟨?_, by omega, ?_⟩
          · have : v ≠ [] := hlen.2
            cases v with
            | nil => exact absurd rfl this
            | cons a as => simp
          · intro c hc
            exact (hchar c).mp (by
              have := (List.all_eq_true.mp hall) c hc
              simpa using this)
        · simp [is_valid_token, hlen, hall] at h
    · rintro ⟨h1, h2, h3⟩
      have hlen : (MAX_TOKEN_LEN < v.length || v.isEmpty) = false := by
        simp [MAX_TOKEN_LEN, List.isEmpty_iff]
        constructor
        · omega
        · intro hv
          subst hv
          simp at h1
      have hall : v.all token_char_ok = true :=
        List.all_eq_true.mpr fun c hc => by
          simpa using (hchar c).mpr (h3 c hc)
      simp [is_valid_token, hlen, hall]
  · intro h
    have hlen : (MAX_TOKEN_LEN < v.length || v.isEmpty) = true := by
      rcases h with h | h
      · simp [List.isEmpty_iff, List.length_eq_zero.mp h]
      · simp [MAX_TOKEN_LEN]
        omega
    simp [is_valid_token, hlen]
  · intro h1 h2 h3
    have hlen : (MAX_TOKEN_LEN < v.length || v.isEmpty) = false := by
      simp [MAX_TOKEN_LEN, List.isEmpty_iff]
      constructor
      · omega
      · intro hv
        subst hv
        simp at h1
    have hall : v.all token_char_ok = false := by
      rcases h3 with ⟨c, hc, hbad⟩
      simp [List.all_eq_true]
      exact ⟨c, hc, by simp [hbad]⟩
    simp [is_valid_token, hlen, hall]

/-- Witness for C7 at the valid token `"BTC"` = [0x42, 0x54, 0x43]. -/
theorem is_valid_token_correct_witness :
    is_valid_token [0x42, 0x54, 0x43] = Except.ok () :=
  (is_valid_token_correct [0x42, 0x54, 0x43]).1.mpr (by decide)

/-- C8: `is_valid_token_name` succeeds exactly when the length is in
[1, 32] and every byte is printable ASCII (0x20-0x7E); `is_valid_desc`
succeeds exactly when the length is at most 128 and every byte is
printable ASCII; any byte below 0x20 or above 0x7E makes either fail; the
empty description succeeds and the empty display name fails. -/
theorem name_desc_valid_correct (v : List Nat) :
    (is_valid_token_name v = Except.ok () ↔
      (1 ≤ v.length ∧ v.length ≤ 32 ∧ ∀ c ∈ v, 0x20 ≤ c ∧ c ≤ 0x7E))
    ∧ (is_valid_desc v = Except.ok () ↔
      (v.length ≤ 128 ∧ ∀ c ∈ v, 0x20 ≤ c ∧ c ≤ 0x7E))
    ∧ ((∃ c ∈ v, c < 0x20 ∨ 0x7E < c) →
        is_valid_token_name v ≠ Except.ok ()
        ∧ is_valid_desc v ≠ Except.ok ())
    ∧ is_valid_desc [] = Except.ok ()
    ∧ is_valid_token_name [] =
        Except.error "Token name is zero or too long." := by
  have hname : is_valid_token_name v = Except.ok () ↔
      (1 ≤ v.length ∧ v.length ≤ 32 ∧ ∀ c ∈ v, 0x20 ≤ c ∧ c ≤ 0x7E) := by
    constructor
    · intro h
      by_cases hlen : MAX_TOKEN_LEN < v.length || v.isEmpty
      · simp [is_valid_token_name, hlen] at h
      · by_cases hall : v.all (fun c => 0x20 ≤ c && c ≤ 0x7E)
        · simp [MAX_TOKEN_LEN, List.isEmpty_iff, Bool.or_eq_true,
            decide_eq_true_eq] at hlen
          push_neg at hlen
          refine ⟨?_, by omega, ?_⟩
          · have : v ≠ [] := hlen.2
            cases v with
            | nil => exact absurd rfl this
            | cons a as => simp
          · intro c hc
            have := (List.all_eq_true.mp hall) c hc
            simpa using this
        · simp [is_valid_token_name, hlen, hall] at h
    · rintro ⟨h1, h2, h3⟩
      have hlen : (MAX_TOKEN_LEN < v.length || v.isEmpty) = false := by
        simp [MAX_TOKEN_LEN, List.isEmpty_iff]
        constructor
        · omega
        · intro hv
          subst hv
          simp at h1
      have hall : v.all (fun c => 0x20 ≤ c && c ≤ 0x7E) = true :=
        List.all_eq_true.mpr fun c hc => by
          simpa using h3 c hc
      simp [is_valid_token_name, hlen, hall]
  have hdesc : is_valid_desc v = Except.ok () ↔
      (v.length ≤ 128 ∧ ∀ c ∈ v, 0x20 ≤ c ∧ c ≤ 0x7E) := by
    constructor
    · intro h
      by_cases hlen : MAX_DESC_LEN < v.length
      · simp [is_valid_desc, hlen] at h
      · by_cases hall : v.all (fun c => 0x20 ≤ c && c ≤ 0x7E)
        · refine ⟨by simpa [MAX_DESC_LEN] using Nat.le_of_not_lt hlen, ?_⟩
          intro c hc
          have := (List.all_eq_true.mp hall) c hc
          simpa using this
        · simp [is_valid_desc, hlen, hall] at h
    · rintro ⟨h1, h2⟩
      have hlen : ¬ MAX_DESC_LEN < v.length := by
        simp [MAX_DESC_LEN]
        omega
      have hall : v.all (fun c => 0x20 ≤ c && c ≤ 0x7E) = true :=
        List.all_eq_true.mpr fun c hc => by
          simpa using h2 c hc
      simp [is_valid_desc, hlen, hall]
  refine ⟨hname, hdesc, ?_, by rfl, by rfl⟩
  rintro ⟨c, hc, hbad⟩
  constructor
  · intro h
    have := (hname.mp h).2.2 c hc
    omega
  · intro h
    have := (hdesc.mp h).2 c hc
    omega

/-- Witness for C8: `"Bitcoin"` is a valid display name and a control byte
makes the description fail. -/
theorem name_desc_valid_correct_witness :
    is_valid_token_name [0x42, 0x69, 0x74, 0x63, 0x6F, 0x69, 0x6E] =
      Except.ok ()
    ∧ is_valid_desc [0x0A] ≠ Except.ok () :=
  ⟨(name_desc_valid_correct [0x42, 0x69, 0x74, 0x63, 0x6F, 0x69, 0x6E]).1.mpr
      (by decide),
   ((name_desc_valid_correct [0x0A]).2.2.1 ⟨0x0A, by decide, by decide⟩).2⟩

/-- C6: `Asset::new` validates token, then token_name, then desc, in that
order, returns the first failure, and on failure produces no `Asset`; an
empty token fails with the token length error whatever the other fields
contain. -/
theorem asset_new_correct (token token_name : Token) (chain : Chain)
    (precision : Precision) (desc : Desc) :
    (∀ e, is_valid_token token = Except.error e →
      Asset.new token token_name chain precision desc = Except.error e)
    ∧ (∀ e, is_valid_token token = Except.ok () →
        is_valid_token_name token_name = Except.error e →
        Asset.new token token_name chain precision desc = Except.error e)
    ∧ (∀ e, is_valid_token token = Except.ok () →
        is_valid_token_name token_name = Except.ok () →
        is_valid_desc desc = Except.error e →
        Asset.new token token_name chain precision desc = Except.error e)
    ∧ (is_valid_token token = Except.ok () →
        is_valid_token_name token_name = Except.ok () →
        is_valid_desc desc = Except.ok () →
        Asset.new token token_name chain precision desc =
          Except.ok ⟨token, token_name, chain, precision, desc⟩)
    ∧ (∀ e a, Asset.new token token_name chain precision desc =
        Except.error e →
        Asset.new token token_name chain precision desc ≠ Except.ok a)
    ∧ Asset.new [] token_name chain precision desc =
        Except.error "Token length is zero or too long." := by
  refine ⟨?_, ?_, ?_, ?_, ?_, ?_⟩
  · intro e h
    simp [Asset.new, Asset.is_valid, h]
  · intro e h1 h2
    simp [Asset.new, Asset.is_valid, h1, h2]
  · intro e h1 h2 h3
    simp [Asset.new, Asset.is_valid, h1, h2, h3]
  · intro h1 h2 h3
    simp [Asset.new, Asset.is_valid, h1, h2, h3]
  · intro e a h1 h2
    rw [h1] at h2
    exact Except.noConfusion h2
  · rfl

/-- Witness for C6: an invalid token symbol (a space) short-circuits
`Asset::new` even though name and desc are valid. -/
theorem asset_new_correct_witness :
    Asset.new [0x20] [0x41] Chain.Bitcoin 8 [] = Except.error
      "Token can only use numbers, capital/lowercase letters or the four symbols." :=
  (asset_new_correct [0x20] [0x41] Chain.Bitcoin 8 []).1 _ (by rfl)

/-- C2: finalize-on-drop applies the token amount to the
`TotalAssetBalance` entry for its symbol and bucket exactly once, leaving
every other entry untouched: a positive drop saturating-adds the amount, a
negative drop subtracts it saturating at zero; dropping `Negative(4)`
tagged (X, ReservedStaking) when the prior total is below 4 leaves the
entry at 0. -/
theorem drop_finalize_correct (M : Nat) (p : PositiveImbalance)
    (n : NegativeImbalance) (s : Store) :
    (p.drop M s) p.token p.type_ = min (s p.token p.type_ + p.amount) M
    ∧ (∀ tok ty, ¬(tok = p.token ∧ ty = p.type_) →
        (p.drop M s) tok ty = s tok ty)
    ∧ (n.drop s) n.token n.type_ = s n.token n.type_ - n.amount
    ∧ (∀ tok ty, ¬(tok = n.token ∧ ty = n.type_) →
        (n.drop s) tok ty = s tok ty)
    ∧ (∀ X : Token, s X AssetType.ReservedStaking < 4 →
        ((NegativeImbalance.new 4 X AssetType.ReservedStaking).drop s)
          X AssetType.ReservedStaking = 0) := by
  refine ⟨?_, ?_, ?_, ?_, ?_⟩
  · simp [PositiveImbalance.drop, saturating_add]
  · intro tok ty h
    simp [PositiveImbalance.drop, h]
  · simp [NegativeImbalance.drop, saturating_sub]
  · intro tok ty h
    simp [NegativeImbalance.drop, h]
  · intro X h
    simp [NegativeImbalance.drop, NegativeImbalance.new, saturating_sub]
    omega

/-- C4 counterexample to the claim as stated: with balance maximum
`M = 10`, merging `Positive(8)` with `Positive(8)` saturates to
`Positive(10)`, so after this step the sum of signed values of the live
tokens (plus the zero net finalized delta) is 10, not the starting 16:
the bookkeeping operations do destroy value at the saturation cap. -/
theorem conservation_cex :
    runOps 10 [Op.merge 0 1]
      [Imb.pos (PositiveImbalance.new 8 [1] AssetType.Free),
       Imb.pos (PositiveImbalance.new 8 [1] AssetType.Free)] =
      some [Imb.pos (PositiveImbalance.new 10 [1] AssetType.Free)]
    ∧ signedSum [Imb.pos (PositiveImbalance.new 10 [1] AssetType.Free)] ≠
      signedSum [Imb.pos (PositiveImbalance.new 8 [1] AssetType.Free),
                 Imb.pos (PositiveImbalance.new 8 [1] AssetType.Free)] :=
  ⟨rfl, by decide⟩

/-- C4 (amended): provided no `merge`/`subsume` along the run saturates
(`stepNoSat`/`runNoSat`), every successfully executed prefix of the
operation sequence preserves the total signed value of the live tokens
(the net finalized delta is zero during these operations, which never
touch the store); and provided finalization does not saturate
(`finalizeNoSat`), finalizing all remaining tokens moves every store entry
by exactly the net signed value tagged with it, so the store total over
the tokens' tags ends at its starting value plus the net signed value of
all tokens ever constructed — independent of order and grouping, since
the result holds for every operation sequence. -/
theorem conservation_correct (M : Nat) (ops : List Op) (ts : List Imb)
    (s : Store) (hrun : runNoSat M ops ts = true) :
    (∀ (n : Nat) (ts' : List Imb), runOps M (ops.take n) ts = some ts' →
      signedSum ts' = signedSum ts)
    ∧ (∀ ts' : List Imb, runOps M ops ts = some ts' →
        finalizeNoSat M ts' s = true →
        (∀ (tok : Token) (ty : AssetType),
          ((finalizeAll M ts' s) tok ty : Int) =
            (s tok ty : Int) + signedSumAt (tok, ty) ts')
        ∧ ((storeTotal (keysOf ts') (finalizeAll M ts' s) : Nat) : Int) =
            ((storeTotal (keysOf ts') s : Nat) : Int) + signedSum ts) := by
  constructor
  · exact fun n ts' h => runOps_take_signedSum M ops ts hrun n ts' h
  · intro ts' hr hfin
    constructor
    · exact fun tok ty => finalizeAll_point M ts' s hfin tok ty
    · have h1 : signedSum ts' = signedSum ts := by
        have h2 := runOps_take_signedSum M ops ts hrun ops.length ts'
        rw [List.take_length] at h2
        exact h2 hr
      rw [finalize_total M ts' s hfin (keysOf ts') (List.nodup_dedup _)
        (fun t ht => List.mem_dedup.mpr (List.mem_map_of_mem Imb.key ht)), h1]

/-- Witness for C4: offsetting `Positive(5)` against `Negative(3)` leaves
`Positive(2)`, conserving signed value, and finalizing it moves the entry
from 10 to 12. -/
theorem conservation_correct_witness :
    signedSum [Imb.pos (PositiveImbalance.new 2 [1] AssetType.Free)] =
      signedSum [Imb.pos (PositiveImbalance.new 5 [1] AssetType.Free),
        Imb.neg (NegativeImbalance.new 3 [1] AssetType.Free)]
    ∧ ((finalizeAll 100 [Imb.pos (PositiveImbalance.new 2 [1] AssetType.Free)]
        (fun _ _ => 10)) [1] AssetType.Free : Int) =
        (((fun _ _ => 10) : Store) [1] AssetType.Free : Int) +
          signedSumAt ([1], AssetType.Free)
            [Imb.pos (PositiveImbalance.new 2 [1] AssetType.Free)] :=
  ⟨(conservation_correct 100 [Op.offset 0 1]
      [Imb.pos (PositiveImbalance.new 5 [1] AssetType.Free),
       Imb.neg (NegativeImbalance.new 3 [1] AssetType.Free)]
      (fun _ _ => 10) rfl).1 1
      [Imb.pos (PositiveImbalance.new 2 [1] AssetType.Free)] rfl,
   ((conservation_correct 100 [Op.offset 0 1]
      [Imb.pos (PositiveImbalance.new 5 [1] AssetType.Free),
       Imb.neg (NegativeImbalance.new 3 [1] AssetType.Free)]
      (fun _ _ => 10) rfl).2
      [Imb.pos (PositiveImbalance.new 2 [1] AssetType.Free)] rfl rfl).1
      [1] AssetType.Free⟩

/-- Witness for C2 at `M = 100`, a constant-3 store, with `X = [88]`. -/
theorem drop_finalize_correct_witness :
    ((PositiveImbalance.new 5 [1] AssetType.Free).drop 100
        (fun _ _ => 3)) [2] AssetType.Free = 3
    ∧ ((NegativeImbalance.new 4 [88] AssetType.ReservedStaking).drop
        (fun _ _ => 3)) [88] AssetType.ReservedStaking = 0 :=
  ⟨(drop_finalize_correct 100 (PositiveImbalance.new 5 [1] AssetType.Free)
      (NegativeImbalance.new 4 [88] AssetType.ReservedStaking)
      (fun _ _ => 3)).2.1 [2] AssetType.Free (by decide),
   (drop_finalize_correct 100 (PositiveImbalance.new 5 [1] AssetType.Free)
      (NegativeImbalance.new 4 [88] AssetType.ReservedStaking)
      (fun _ _ => 3)).2.2.2.2 [88] (by decide)⟩

end BEVM
